import Mathlib

/-!
# Verification of the mgit concurrent status-dashboard core

Shallow embedding of the mgit repository's core components:
`git_utils.GitRepo`, `git_cache.GitCache`,
`parallel_processor.ParallelRepoProcessor` / `RepoResult`,
`repo_scanner.RepoScanner` and `progressive_display.ProgressiveDisplay`.

External subprocess calls (`git`, `gh`) are modelled by their observable
contract: each call either returns an output string (`Option String`,
`none` standing for a failed command whose wrapper swallows the error) or,
at the task level, raises an exception carried as `Except String α`.
Python dictionaries are modelled as association lists with
insertion-order-preserving overwrite (`setKey`), matching `dict`
assignment semantics.  Python `int` values that are always non-negative
in the program (change counts, commit counts, PR numbers, line numbers)
are modelled as `Nat`; filesystem modification times are modelled as
integers, of which the code only uses ordering.
-/

namespace Mgit

/-- Python `dict` assignment `m[k] = v`: overwrite in place if the key is
present (keeping its position, as `dict` does), else append. -/
def setKey {α : Type} : List (String × α) → String → α → List (String × α)
  | [], k, v => [(k, v)]
  | (k', v') :: rest, k, v =>
    if k' = k then (k, v) :: rest else (k', v') :: setKey rest k v

theorem lookup_setKey_self {α : Type} (m : List (String × α)) (k : String) (v : α) :
    (setKey m k v).lookup k = some v := by
  induction m with
  | nil => simp [setKey, List.lookup]
  | cons hd tl ih =>
    obtain ⟨k', v'⟩ := hd
    by_cases h : k' = k
    · simp [setKey, h, List.lookup]
    · simp only [setKey, if_neg h, List.lookup]
      have : (k == k') = false := by
        simp [beq_iff_eq]; exact fun hk => h hk.symm
      simp [this, ih]

theorem lookup_setKey_ne {α : Type} (m : List (String × α)) (k k' : String) (v : α)
    (h : k' ≠ k) : (setKey m k v).lookup k' = m.lookup k' := by
  induction m with
  | nil =>
    simp only [setKey, List.lookup]
    have : (k' == k) = false := by simp [beq_iff_eq]; exact h
    simp [this]
  | cons hd tl ih =>
    obtain ⟨ka, va⟩ := hd
    by_cases hk : ka = k
    · subst hk
      have h1 : (k' == ka) = false := by simp [beq_iff_eq]; exact h
      simp [setKey, List.lookup, h1]
    · simp only [setKey, if_neg hk, List.lookup]
      by_cases he : k' = ka
      · subst he; simp
      · have : (k' == ka) = false := by simp [beq_iff_eq]; exact he
        simp [this, ih]

/-- Keys of `setKey m k v`: unchanged when `k` is already a key of `m`,
otherwise `k` is appended. -/
theorem keys_setKey {α : Type} (m : List (String × α)) (k : String) (v : α) :
    (setKey m k v).map Prod.fst =
      (if k ∈ m.map Prod.fst then m.map Prod.fst else m.map Prod.fst ++ [k]) := by
  induction m with
  | nil => simp [setKey]
  | cons hd tl ih =>
    obtain ⟨k', v'⟩ := hd
    by_cases h : k' = k
    · subst h; simp [setKey]
    · simp only [setKey, if_neg h, List.map_cons]
      have hne : ¬ k = k' := fun he => h he.symm
      by_cases hm : k ∈ tl.map Prod.fst
      · simp [hm, hne, ih]
      · simp [hm, hne, ih]

/-! ## Data model: RepoResult and its field payloads (parallel_processor.py) -/

/-- `pr_info` payload returned by `GitRepo._check_pr_exists`:
`{"exists": bool, "number": int-or-None, "url": str-or-None}`. -/
structure PRInfo where
  pr_exists : Bool
  number : Option Nat
  url : Option String
deriving DecidableEq

/-- `sync_status` payload returned by `GitRepo._get_sync_status`:
`{"status": str, "ahead": int, "behind": int}`. -/
structure SyncStatus where
  status : String
  ahead : Nat
  behind : Nat
deriving DecidableEq

/-- The mutable per-repository aggregate `RepoResult` of
`parallel_processor.py`.  Optional fields start `none` (unset); `errors`
is the field-tag → message dictionary (empty after `__post_init__`). -/
structure RepoResult where
  name : String
  display_name : String
  unstaged_changes : Option Nat := none
  current_branch : Option String := none
  pr_info : Option PRInfo := none
  is_remote_updated : Option Bool := none
  sync_status : Option SyncStatus := none
  repo_url : Option String := none
  errors : List (String × String) := []
deriving DecidableEq

/-! ## git_utils.GitRepo: pure post-processing of command outputs -/

/-- Python truthiness of an `Optional[str]`: `None` and `""` are falsy. -/
def pyTruthy : Option String → Bool
  | none => false
  | some s => !s.isEmpty

/-- `int(output) if output and output.isdigit() else 0`
(the count parsing in `GitRepo._get_sync_status`; `str.isdigit` is
modelled on the ASCII digits the `git rev-list --count` output uses). -/
def parseCount : Option String → Nat
  | none => 0
  | some s =>
    if !s.isEmpty && s.toList.all Char.isDigit then (s.toNat?).getD 0 else 0

/-- `GitRepo._get_sync_status`, as a function of the four command outputs
it consumes: `git rev-parse <branch>`, `git rev-parse origin/<branch>`,
and the two `git rev-list --count` range queries.  (The leading
`git fetch` only updates remote-tracking state and its output is
discarded, so it does not appear as an argument.) -/
def getSyncStatus (localCommit remoteCommit aheadOutput behindOutput : Option String) :
    SyncStatus :=
  if !(pyTruthy localCommit) then ⟨"unknown", 0, 0⟩
  else if !(pyTruthy remoteCommit) then ⟨"ahead", 1, 0⟩
  else if localCommit = remoteCommit then ⟨"synced", 0, 0⟩
  else
    let aheadCount := parseCount aheadOutput
    let behindCount := parseCount behindOutput
    if aheadCount > 0 && behindCount > 0 then ⟨"diverged", aheadCount, behindCount⟩
    else if aheadCount > 0 then ⟨"ahead", aheadCount, 0⟩
    else if behindCount > 0 then ⟨"behind", 0, behindCount⟩
    else ⟨"synced", 0, 0⟩

/-- One line of `git status --porcelain` output, as scanned by
`GitRepo._get_unstaged_changes`: empty lines do not count; otherwise
`line[1]` is inspected first (an `IndexError` on a one-character line
propagates as an exception), then `line[0]`. -/
def lineCountsUnstaged (line : List Char) : Except String Bool :=
  match line with
  | [] => .ok false
  | [_] => .error "string index out of range"
  | c0 :: c1 :: _ =>
    .ok (c1 = 'M' ∨ c1 = 'D' ∨ c1 = 'A' ∨ c1 = '?' ∨ c0 = '?')

/-- Python `s.split("\n")`: split on every newline, keeping empty pieces
(the empty string yields `[""]`). -/
def splitOnNl : List Char → List (List Char)
  | [] => [[]]
  | c :: cs =>
    match splitOnNl cs with
    | [] => [[c]]
    | l :: ls => if c = '\n' then [] :: l :: ls else (c :: l) :: ls

/-- `GitRepo._get_unstaged_changes` as a function of the
`git status --porcelain` wrapper output (`none` = command failed). -/
def getUnstagedChanges (output : Option String) : Except String Nat :=
  match output with
  | none => .ok 0
  | some out =>
    (splitOnNl out.toList).foldlM
      (fun acc line => do
        let b ← lineCountsUnstaged line
        pure (acc + if b then 1 else 0))
      0

/-- `GitRepo._get_current_branch` as a function of the
`git branch --show-current` wrapper output. -/
def getCurrentBranch (branchOutput : Option String) : String :=
  match branchOutput with
  | some b => if !b.isEmpty then b else "detached"
  | none => "detached"

/-! ## parallel_processor.ParallelRepoProcessor: task bodies and merging

Each task body is embedded as a function of the outcomes of the external
calls it makes (`Except String α`: `.ok` = the call returned, `.error` =
the call raised, carrying `str(e)`); the Python `try/except` blocks are
embedded by matching on these outcomes. -/

/-- `ParallelRepoProcessor.process_repo_fast`: builds a fresh `RepoResult`
from the outcomes of `repo._get_unstaged_changes()` and
`repo._get_current_branch()`, recording failures under the tags
`"unstaged"` and `"branch"`. -/
def process_repo_fast (name displayName : String)
    (unstagedCall : Except String Nat) (branchCall : Except String String) : RepoResult :=
  let r : RepoResult := { name := name, display_name := displayName }
  let r :=
    match unstagedCall with
    | .ok n => { r with unstaged_changes := some n }
    | .error e => { r with errors := setKey r.errors "unstaged" e }
  match branchCall with
  | .ok b => { r with current_branch := some b }
  | .error e => { r with errors := setKey r.errors "branch" e }

/-- The `updates` dictionary built by
`ParallelRepoProcessor.process_repo_slow`.  Its possible keys are exactly
`pr_info`, `is_remote_updated`, `sync_status`, `repo_url` and the three
error keys `pr_error`, `remote_error`, `repo_url_error`; it is embedded
as the closed record of those optional entries.  `repo_url` may be set to
Python `None`, hence its `Option (Option String)` payload. -/
structure Updates where
  pr_info : Option PRInfo := none
  is_remote_updated : Option Bool := none
  sync_status : Option SyncStatus := none
  repo_url : Option (Option String) := none
  pr_error : Option String := none
  remote_error : Option String := none
  repo_url_error : Option String := none
deriving DecidableEq

/-- `ParallelRepoProcessor.process_repo_slow`: three `try` blocks over the
outcomes of `_check_pr_exists()`, then `_check_remote_updated()` followed
by `_get_sync_status()` (one shared `except`), then `_get_repo_url()`.
Note that when `_check_remote_updated()` returns but the subsequent
`_get_sync_status()` call raises, `is_remote_updated` has already been
stored in `updates` and `remote_error` is recorded as well. -/
def process_repo_slow (name : String)
    (prCall : Except String PRInfo)
    (remoteUpdatedCall : Except String Bool)
    (syncCall : Except String SyncStatus)
    (urlCall : Except String (Option String)) : String × Updates :=
  let u : Updates := {}
  let u :=
    match prCall with
    | .ok v => { u with pr_info := some v }
    | .error e => { u with pr_error := some e }
  let u :=
    match remoteUpdatedCall with
    | .ok b =>
      match syncCall with
      | .ok s => { u with is_remote_updated := some b, sync_status := some s }
      | .error e => { u with is_remote_updated := some b, remote_error := some e }
    | .error e => { u with remote_error := some e }
  let u :=
    match urlCall with
    | .ok v => { u with repo_url := some v }
    | .error e => { u with repo_url_error := some e }
  (name, u)

/-- The body of the `for key, value in updates.items()` loop of
`ParallelRepoProcessor.update_result`: keys ending in `_error` land in
`result.errors` under the tag with the suffix stripped
(`pr_error → pr`, `remote_error → remote`, `repo_url_error → repo_url`),
every other key is assigned to the attribute of the same name. -/
def applyUpdates (r : RepoResult) (u : Updates) : RepoResult :=
  let r := match u.pr_info with
    | some v => { r with pr_info := some v }
    | none => r
  let r := match u.is_remote_updated with
    | some v => { r with is_remote_updated := some v }
    | none => r
  let r := match u.sync_status with
    | some v => { r with sync_status := some v }
    | none => r
  let r := match u.repo_url with
    | some v => { r with repo_url := v }
    | none => r
  let r := match u.pr_error with
    | some e => { r with errors := setKey r.errors "pr" e }
    | none => r
  let r := match u.remote_error with
    | some e => { r with errors := setKey r.errors "remote" e }
    | none => r
  match u.repo_url_error with
  | some e => { r with errors := setKey r.errors "repo_url" e }
  | none => r

/-- The shared result map `self.results` (a Python `dict` keyed by
`repo.real_name`), as an insertion-ordered association list. -/
abbrev ResultMap := List (String × RepoResult)

/-- `ParallelRepoProcessor.update_result`: under the lock, merge `updates`
into the existing entry; a repo name absent from the map is a no-op. -/
def update_result (results : ResultMap) (repoName : String) (u : Updates) : ResultMap :=
  if (results.lookup repoName).isSome then
    results.map (fun p => if p.1 = repoName then (p.1, applyUpdates p.2 u) else p)
  else results

/-- The fast-phase insertion `self.results[result.name] = result`. -/
def insertResult (results : ResultMap) (r : RepoResult) : ResultMap :=
  setKey results r.name r

/-! ## The two-phase scheduler as a trace over completion orders

A repository's run is determined by the outcomes of its six external
calls; `as_completed` yields futures in an arbitrary order, modelled by
quantifying over a permutation of the repository list per phase.  After
each individual completion the current map is snapshotted for the
`display_callback` (the snapshot list below). -/

deriving instance DecidableEq for Except

/-- One repository together with the outcomes of all external calls its
two task bodies make during the run. -/
structure RepoTask where
  name : String
  display_name : String
  fastUnstaged : Except String Nat
  fastBranch : Except String String
  slowPr : Except String PRInfo
  slowRemoteUpdated : Except String Bool
  slowSync : Except String SyncStatus
  slowUrl : Except String (Option String)
deriving DecidableEq

/-- Phase 1 of `ParallelRepoProcessor.process_all`, folded over the fast
completion order: insert each fast result, then snapshot for the
callback (`phase = "fast"`). -/
def fastPhase (order : List RepoTask) (m0 : ResultMap) :
    ResultMap × List ResultMap :=
  order.foldl
    (fun acc t =>
      let m := insertResult acc.1
        (process_repo_fast t.name t.display_name t.fastUnstaged t.fastBranch)
      (m, acc.2 ++ [m]))
    (m0, [])

/-- Phase 2 (`_process_slow_operations`), folded over the slow completion
order: merge each slow result via `update_result`, then snapshot for the
callback (`phase = "slow"`). -/
def slowPhase (order : List RepoTask) (m0 : ResultMap) :
    ResultMap × List ResultMap :=
  order.foldl
    (fun acc t =>
      let nu := process_repo_slow t.name t.slowPr t.slowRemoteUpdated t.slowSync t.slowUrl
      let m := update_result acc.1 nu.1 nu.2
      (m, acc.2 ++ [m]))
    (m0, [])

/-- `ParallelRepoProcessor.process_all` over given completion orders:
the fast phase fully drains (the executor context exits) before the slow
phase starts; returns the final map and the two snapshot streams. -/
def process_all (fastOrder slowOrder : List RepoTask) :
    ResultMap × List ResultMap × List ResultMap :=
  let fp := fastPhase fastOrder []
  let sp := slowPhase slowOrder fp.1
  (sp.1, fp.2, sp.2)

/-! ## git_cache.GitCache

The persisted cache is a JSON object keyed by absolute repository path;
entries written by `set_cache_data` always have the shape
`{"mtime": number, "data": {...}}`.  Cached field values are arbitrary
JSON, modelled by `PyVal` (only the shapes the code type-checks with
`isinstance` matter).  Filesystem modification times are modelled as an
oracle `fs : String → Int` giving `_get_git_mtime` for each repository
path at the current instant; "no intervening change to the repository's
metadata modification times" means the same oracle is used for
consecutive operations. -/

/-- A JSON-ish Python value as stored in a cache entry's `data` map. -/
inductive PyVal where
  | vInt (n : Int)
  | vStr (s : String)
  | vBool (b : Bool)
  | vNull
  | vDict (fields : List (String × PyVal))

/-- One cache entry: `{"mtime": number, "data": field-map}`. -/
structure CacheEntry where
  mtime : Int
  data : List (String × PyVal)

/-- The in-memory `GitCache._cache_data` mapping repo keys to entries. -/
structure GitCache where
  cacheData : List (String × CacheEntry)

/-- `GitCache.is_cached_valid`: the key is present and its stored mtime is
`>=` the freshness mtime recomputed from the repository's metadata. -/
def is_cached_valid (c : GitCache) (fs : String → Int) (repoPath : String) : Bool :=
  match c.cacheData.lookup repoPath with
  | none => false
  | some e => e.mtime ≥ fs repoPath

/-- `GitCache.get_cached_data`: the entry's `data` map, `{}` if absent. -/
def get_cached_data (c : GitCache) (repoPath : String) : List (String × PyVal) :=
  match c.cacheData.lookup repoPath with
  | none => []
  | some e => e.data

/-- `GitCache.set_cache_data`: store `{"mtime": currentMtime, "data": data}`
under the repo key (and persist the whole file, a swallowed-failure side
effect outside the data model). -/
def set_cache_data (c : GitCache) (fs : String → Int) (repoPath : String)
    (data : List (String × PyVal)) : GitCache :=
  ⟨setKey c.cacheData repoPath ⟨fs repoPath, data⟩⟩

/-! ## repo_scanner.RepoScanner: scan-time cache persistence (C7)

`RepoScanner.scan_current_directory` constructs every `GitRepo` (whose
`_load_cached_data` fills `_cached_data` from the cache when
`is_cached_valid` holds, else leaves it empty) and then immediately calls
`repo._save_to_cache()` on each — all before `main` ever starts the
two-phase processing.  `_save_to_cache` filters `_cached_data` down to
the six cached field keys and persists only when that map is non-empty. -/

/-- The six field keys `GitRepo._save_to_cache` copies into the persisted
`data` map. -/
def cacheFieldKeys : List String :=
  ["unstaged_changes", "current_branch", "pr_info", "is_remote_updated",
   "sync_status", "repo_url"]

/-- A scanned repository as relevant to persistence: whether its cache
entry was valid at construction, and the cached `data` map it would load. -/
structure ScannedRepo where
  name : String
  cacheValid : Bool
  cachedEntryData : List (String × PyVal)

/-- `GitRepo._load_cached_data`: the `_cached_data` a repo holds right
after construction. -/
def loadedData (r : ScannedRepo) : List (String × PyVal) :=
  if r.cacheValid then r.cachedEntryData else []

/-- The `data` map `GitRepo._save_to_cache` would persist: `_cached_data`
restricted to the six cached field keys (in that fixed key order). -/
def saveData (r : ScannedRepo) : List (String × PyVal) :=
  cacheFieldKeys.filterMap (fun k => ((loadedData r).lookup k).map (fun v => (k, v)))

/-- Events of one `mgit status` run (parallel mode), in program order. -/
inductive RunEvent where
  | persist (name : String)
  | fastDone (name : String)
  | slowDone (name : String)
deriving DecidableEq

/-- The persist events emitted by the save loop at the end of
`RepoScanner.scan_current_directory`: one per repo whose filtered save
data is non-empty. -/
def scanPersists (repos : List ScannedRepo) : List RunEvent :=
  repos.filterMap (fun r => if !(saveData r).isEmpty then some (RunEvent.persist r.name) else none)

/-- The event trace of one parallel-mode run of `main`: the scan (with its
save loop) runs to completion and returns before
`ParallelRepoProcessor.process_all` starts the fast phase, which drains
before the slow phase. -/
def runTrace (repos : List ScannedRepo) (fastOrder slowOrder : List String) :
    List RunEvent :=
  scanPersists repos ++ fastOrder.map RunEvent.fastDone ++ slowOrder.map RunEvent.slowDone

/-! ## git_utils.GitRepo: cached properties versus the fast-phase task (C1)

`GitRepo` keeps `_cached_data`, filled at construction by
`_load_cached_data` from the cache when `is_cached_valid` holds.  The
caching property accessors (`unstaged_changes`, `current_branch`) return
the cached value when its key is present and only otherwise run the git
query; the private `_get_unstaged_changes` / `_get_current_branch`
methods always run it.  To observe which external queries a computation
performs, each embedded operation returns its value together with the
list of git invocations it made. -/

/-- A constructed `GitRepo`, as the run sees it: the `_cached_data` dict
loaded at construction, and an oracle `exec` giving the wrapper output of
`_run_git_command` for each argument list (`none` = command failed). -/
structure GitRepo where
  real_name : String
  display_name : String
  cachedData : List (String × PyVal)
  exec : List String → Option String

/-- The `isinstance(cached_value, int)`-checked coercion in the
`unstaged_changes` property (`0` for a non-int; Python `bool` is a
subclass of `int`). -/
def asIntOrZero : PyVal → Int
  | .vInt n => n
  | .vBool b => if b then 1 else 0
  | _ => 0

/-- The `isinstance(cached_value, str)`-checked coercion in the
`current_branch` property (`"unknown"` for a non-str). -/
def asStrOrUnknown : PyVal → String
  | .vStr s => s
  | _ => "unknown"

/-- `GitRepo._run_git_command`, instrumented: the wrapper output together
with the recorded git invocation. -/
def runGitCommandT (repo : GitRepo) (args : List String) :
    Option String × List (List String) :=
  (repo.exec args, [args])

/-- `GitRepo._get_unstaged_changes`: always runs
`git status --porcelain`. -/
def getUnstagedChangesT (repo : GitRepo) : Except String Nat × List (List String) :=
  let c := runGitCommandT repo ["status", "--porcelain"]
  (getUnstagedChanges c.1, c.2)

/-- `GitRepo._get_current_branch`: always runs
`git branch --show-current`. -/
def getCurrentBranchT (repo : GitRepo) : String × List (List String) :=
  let c := runGitCommandT repo ["branch", "--show-current"]
  (getCurrentBranch c.1, c.2)

/-- The caching property `GitRepo.unstaged_changes`: the cached value
(through the `isinstance` check) with no git invocation when the key is
present, else the fresh query.  (On the fresh path the property also
memoizes into `_cached_data`; that mutation only affects later accesses
and is outside this per-call view.) -/
def unstagedChangesProp (repo : GitRepo) : Except String Int × List (List String) :=
  match repo.cachedData.lookup "unstaged_changes" with
  | some v => (.ok (asIntOrZero v), [])
  | none =>
    let c := getUnstagedChangesT repo
    (c.1.map Int.ofNat, c.2)

/-- The caching property `GitRepo.current_branch`: cached value with no
git invocation when present, else the fresh query. -/
def currentBranchProp (repo : GitRepo) : String × List (List String) :=
  match repo.cachedData.lookup "current_branch" with
  | some v => (asStrOrUnknown v, [])
  | none => getCurrentBranchT repo

/-- `ParallelRepoProcessor.process_repo_fast` as the code runs it on a
`GitRepo`: it calls the private query methods `_get_unstaged_changes()`
and `_get_current_branch()` directly — not the caching properties — so
both git commands are issued unconditionally.  Returns the fast
`RepoResult` together with the git invocations performed. -/
def process_repo_fastT (repo : GitRepo) : RepoResult × List (List String) :=
  let u := getUnstagedChangesT repo
  let b := getCurrentBranchT repo
  (process_repo_fast repo.real_name repo.display_name u.1 (.ok b.1), u.2 ++ b.2)

/-! ## progressive_display.ProgressiveDisplay -/

/-- The ANSI escape character `\033`. -/
def escChar : Char := '\x1b'

/-- The substitution scanner of the regex
`\033\]8;;[^\033]*\033\\|\033\]8;;\033\\|\033\[[0-9;]*m` used by
`visible_len` / `pad_with_ansi`: at each position, strip a hyperlink
sequence `ESC ] 8 ; ; <non-ESC>* ESC \` (the second regex alternative is
the empty-URL case of the first) or a color sequence `ESC [ [0-9;]* m`,
else keep the character and move on. -/
def stripAnsiAux : Nat → List Char → List Char
  | 0, l => l
  | _ + 1, [] => []
  | fuel + 1, c :: cs =>
    if c = escChar then
      match cs with
      | ']' :: '8' :: ';' :: ';' :: rest =>
        match rest.dropWhile (· != escChar) with
        | _ :: '\\' :: rest' => stripAnsiAux fuel rest'
        | _ => c :: stripAnsiAux fuel cs
      | '[' :: rest =>
        match rest.dropWhile (fun ch => ch.isDigit || ch == ';') with
        | 'm' :: rest' => stripAnsiAux fuel rest'
        | _ => c :: stripAnsiAux fuel cs
      | _ => c :: stripAnsiAux fuel cs
    else c :: stripAnsiAux fuel cs

/-- The scanner applied with enough fuel: every step of `stripAnsiAux`
consumes at least one character, so `l.length` steps always suffice
(`stripAnsiAux_saturates` below shows the result does not depend on the
exact fuel once it is `≥ l.length`). -/
def stripAnsi (l : List Char) : List Char := stripAnsiAux l.length l

/-- The scanner's result is independent of the fuel once the fuel is at
least the input length, so taking fuel `l.length` in `stripAnsi` is
canonical. -/
theorem stripAnsiAux_saturates (fuel : Nat) (l : List Char) (fuel' : Nat)
    (h : l.length ≤ fuel) (h' : l.length ≤ fuel') :
    stripAnsiAux fuel l = stripAnsiAux fuel' l := by
  induction fuel, l using stripAnsiAux.induct generalizing fuel' with
  | case1 l =>
    have h0 : l = [] := List.eq_nil_of_length_eq_zero (Nat.le_zero.mp h)
    subst h0
    cases fuel' <;> rfl
  | case2 n =>
    cases fuel' <;> rfl
  | case3 fuel rest head rest' hdw ih =>
    cases fuel' with
    | zero => simp at h'
    | succ f' =>
      have hlen : (rest.dropWhile (· != escChar)).length ≤ rest.length :=
        (List.dropWhile_sublist _).length_le
      rw [hdw] at hlen
      simp only [List.length_cons] at hlen h h'
      simp only [stripAnsiAux, hdw]
      exact ih f' (by omega) (by omega)
  | case4 fuel rest hne ih =>
    cases fuel' with
    | zero => simp at h'
    | succ f' =>
      simp only [List.length_cons] at h h'
      simp only [stripAnsiAux]
      have := ih f' (by simp only [List.length_cons]; omega) (by simp only [List.length_cons]; omega)
      split <;> exact congrArg _ this
  | case5 fuel rest rest' hdw ih =>
    cases fuel' with
    | zero => simp at h'
    | succ f' =>
      have hlen : (rest.dropWhile (fun ch => ch.isDigit || ch == ';')).length ≤ rest.length :=
        (List.dropWhile_sublist _).length_le
      rw [hdw] at hlen
      simp only [List.length_cons] at hlen h h'
      simp only [stripAnsiAux, hdw]
      exact ih f' (by omega) (by omega)
  | case6 fuel rest hne ih =>
    cases fuel' with
    | zero => simp at h'
    | succ f' =>
      simp only [List.length_cons] at h h'
      simp only [stripAnsiAux]
      have := ih f' (by simp only [List.length_cons]; omega) (by simp only [List.length_cons]; omega)
      split <;> exact congrArg _ this
  | case7 fuel c hn1 hn2 ih =>
    cases fuel' with
    | zero => simp at h'
    | succ f' =>
      simp only [List.length_cons] at h h'
      simp only [stripAnsiAux]
      split <;> exact congrArg _ (ih f' (by omega) (by omega))
  | case8 fuel c cs hesc =>
    rename_i ih
    cases fuel' with
    | zero => simp at h'
    | succ f' =>
      simp only [List.length_cons] at h h'
      simp only [stripAnsiAux, if_neg hesc]
      exact congrArg _ (ih f' (by omega) (by omega))

/-- `visible_len`: character count after stripping color and hyperlink
escape sequences. -/
def visibleLen (s : String) : Nat := (stripAnsi s.toList).length

/-- A run of `n` spaces. -/
def spaces (n : Nat) : String := String.mk (List.replicate n ' ')

/-- `ProgressiveDisplay.pad_with_ansi`: pad to `width` visible columns
(`align` is the Python string argument `"left"`/`"center"`/else-right). -/
def padWithAnsi (text : String) (width : Nat) (align : String) : String :=
  let vlen := visibleLen text
  if vlen ≥ width then text
  else
    let padding := width - vlen
    if align = "left" then text ++ spaces padding
    else if align = "center" then
      let leftPad := padding / 2
      let rightPad := padding - leftPad
      spaces leftPad ++ text ++ spaces rightPad
    else spaces padding ++ text

/-- `ProgressiveDisplay.create_hyperlink`: OSC 8 hyperlink when both the
url and the label are truthy, else the bare label. -/
def createHyperlink (url : Option String) (text : String) : String :=
  match url with
  | some u =>
    if !u.isEmpty && !text.isEmpty then
      "\x1b]8;;" ++ u ++ "\x1b\\" ++ text ++ "\x1b]8;;" ++ "\x1b\\"
    else text
  | none => text

/-- The ten rotating placeholder glyphs `ProgressiveDisplay.spinner_chars`. -/
def spinnerChars : List String :=
  ["⠋", "⠙", "⠹", "⠸", "⠼", "⠴", "⠦", "⠧", "⠇", "⠏"]

/-- `self.spinner_chars[self.spinner_index % len(self.spinner_chars)]`. -/
def spinnerChar (spinnerIndex : Nat) : String :=
  spinnerChars.getD (spinnerIndex % spinnerChars.length) ""

/-- `result.errors and tag in result.errors` (dict truthiness plus key
membership). -/
def errHas (errors : List (String × String)) (tag : String) : Bool :=
  !errors.isEmpty && (errors.lookup tag).isSome

/-- `ProgressiveDisplay._get_sync_indicator`. -/
def getSyncIndicator (r : RepoResult) : String :=
  match r.sync_status with
  | some ss =>
    if ss.status = "synced" then "\x1b[32m✓\x1b[0m"
    else if ss.status = "ahead" then "\x1b[33m↑\x1b[0m"
    else if ss.status = "behind" then "\x1b[31m↓\x1b[0m"
    else if ss.status = "diverged" then "\x1b[31m↕\x1b[0m"
    else "\x1b[90m?\x1b[0m"
  | none =>
    match r.is_remote_updated with
    | some b => if b then "\x1b[32m✓\x1b[0m" else "\x1b[31m✗\x1b[0m"
    | none => "\x1b[90m?\x1b[0m"

/-- The unstaged cell of one row of `update_display`. -/
def cellUnstaged (r : RepoResult) (spinner : String) : String :=
  match r.unstaged_changes with
  | some n => toString n
  | none => if errHas r.errors "unstaged" then "Error" else spinner

/-- The branch cell of one row of `update_display`. -/
def cellBranch (r : RepoResult) (spinner : String) : String :=
  match r.current_branch with
  | some b => b
  | none => if errHas r.errors "branch" then "Error" else spinner

/-- Python truthiness of the optional PR number (int). -/
def numTruthy : Option Nat → Bool
  | none => false
  | some n => n != 0

/-- Python truthiness of the optional PR url (str). -/
def strTruthy : Option String → Bool
  | none => false
  | some s => !s.isEmpty

/-- The PR cell of one row of `update_display`. -/
def cellPR (r : RepoResult) (spinner : String) : String :=
  match r.pr_info with
  | some info =>
    if info.pr_exists then
      if numTruthy info.number && strTruthy info.url then
        createHyperlink info.url (toString (info.number.getD 0))
      else "Yes"
    else "No"
  | none => if errHas r.errors "pr" then "Error" else spinner

/-- The sync cell of one row of `update_display`. -/
def cellRemote (r : RepoResult) (spinner : String) : String :=
  if r.sync_status.isSome || r.is_remote_updated.isSome then getSyncIndicator r
  else if errHas r.errors "remote" then "Error"
  else spinner

/-- The repository-name cell of one row of `update_display`
(`if result.repo_url:` — Python truthiness). -/
def cellRepoName (r : RepoResult) : String :=
  match r.repo_url with
  | some u => if !u.isEmpty then createHyperlink (some u) r.display_name else r.display_name
  | none => r.display_name

/-- One table row: (repository, unstaged, branch, PR, sync) cells. -/
abbrev Row := String × String × String × String × String

/-- One row tuple as built by the first loop of `update_display`. -/
def buildRow (spinner : String) (r : RepoResult) : Row :=
  (cellRepoName r, cellUnstaged r spinner, cellBranch r spinner,
   cellPR r spinner, cellRemote r spinner)

/-- The key order `sorted(results.values(), key=lambda r: r.display_name)`
uses. -/
def nameLe (a b : RepoResult) : Prop := a.display_name ≤ b.display_name

instance : DecidableRel nameLe := fun a b =>
  inferInstanceAs (Decidable (a.display_name ≤ b.display_name))

instance : IsTotal RepoResult nameLe := ⟨fun a b => le_total a.display_name b.display_name⟩

instance : IsTrans RepoResult nameLe := ⟨fun _ _ _ h1 h2 => le_trans h1 h2⟩

/-- `sorted(..., key=lambda r: r.display_name)`: a stable sort by display
name (Python's `sorted` is stable, as is insertion sort). -/
def sortByName (results : List RepoResult) : List RepoResult :=
  List.insertionSort nameLe results

/-- The row list of one frame: dict values in insertion order, sorted by
display name, then formatted with the current spinner glyph. -/
def buildRows (m : ResultMap) (spinnerIndex : Nat) : List Row :=
  (sortByName (m.map Prod.snd)).map (buildRow (spinnerChar spinnerIndex))

/-- `max(l)` of a non-empty list of naturals (folding from 0 is equal,
since all elements are `≥ 0`). -/
def listMaxNat (l : List Nat) : Nat := l.foldl max 0

/-- One column width of `update_display`:
`max(minW, max(visible_len(cell) for cell in column) if rows else minW)`. -/
def colWidth (minW : Nat) (cells : List String) : Nat :=
  if cells.isEmpty then minW else max minW (listMaxNat (cells.map visibleLen))

/-- The five column widths recomputed each frame, with fixed minimums
repository 30, unstaged 10, branch 20, PR 8, sync 14. -/
def computeWidths (rows : List Row) : Nat × Nat × Nat × Nat × Nat :=
  (colWidth 30 (rows.map (·.1)),
   colWidth 10 (rows.map (·.2.1)),
   colWidth 20 (rows.map (·.2.2.1)),
   colWidth 8 (rows.map (·.2.2.2.1)),
   colWidth 14 (rows.map (·.2.2.2.2)))

/-- Python format-spec `<` padding (left-justify with spaces). -/
def pyLjust (s : String) (w : Nat) : String := s ++ spaces (w - s.length)

/-- Python format-spec `^` padding (center, extra space on the right). -/
def pyCenter (s : String) (w : Nat) : String :=
  let padding := w - s.length
  spaces (padding / 2) ++ s ++ spaces (padding - padding / 2)

/-- The header line of `print_header`. -/
def headerLine (repoW unstagedW branchW prW syncW : Nat) : String :=
  pyLjust "Repository" repoW ++ " " ++ pyLjust "Unstaged" unstagedW ++ " " ++
    pyLjust "Branch" branchW ++ " " ++ pyLjust "PR" prW ++ " " ++ pyCenter "Sync" syncW

/-- Terminal protocol commands emitted by the renderer (shallow model of
the emitted escape sequences: `ESC[2J ESC[H`, `ESC[line;1H`, `ESC[K`,
printed text, newline). -/
inductive TermCmd where
  | clearScreen
  | moveTo (line : Nat)
  | clearEol
  | text (s : String)
  | newline
deriving DecidableEq

/-- `ProgressiveDisplay.print_header`: clear the screen and print header
plus separator, but only on the first frame. -/
def printHeaderOut (headerPrinted : Bool) (repoW unstagedW branchW prW syncW : Nat) :
    List TermCmd :=
  if headerPrinted then []
  else
    let h := headerLine repoW unstagedW branchW prW syncW
    [TermCmd.clearScreen, TermCmd.text h, TermCmd.newline,
     TermCmd.text (String.mk (List.replicate h.length '-')), TermCmd.newline]

/-- The printed content of data row `i` (0-based): each cell padded to its
column width, sync centered, single spaces between columns. -/
def rowLine (w : Nat × Nat × Nat × Nat × Nat) (row : Row) : String :=
  padWithAnsi row.1 w.1 "left" ++ " " ++
    padWithAnsi row.2.1 w.2.1 "left" ++ " " ++
    padWithAnsi row.2.2.1 w.2.2.1 "left" ++ " " ++
    padWithAnsi row.2.2.2.1 w.2.2.2.1 "left" ++ " " ++
    padWithAnsi row.2.2.2.2 w.2.2.2.2 "center"

/-- `ProgressiveDisplay.update_display`: build sorted rows, compute
widths, print the header once, then for each row reposition the cursor to
its fixed line `3 + i`, clear the line, and rewrite it. -/
def updateDisplayOut (headerPrinted : Bool) (m : ResultMap) (spinnerIndex : Nat) :
    List TermCmd :=
  let rows := buildRows m spinnerIndex
  let w := computeWidths rows
  printHeaderOut headerPrinted w.1 w.2.1 w.2.2.1 w.2.2.2.1 w.2.2.2.2 ++
    (rows.enum.map
      (fun p => [TermCmd.moveTo (3 + p.1), TermCmd.clearEol, TermCmd.text (rowLine w p.2)])).flatten

/-- `ProgressiveDisplay.final_display`: one more full `update_display`
frame, then `move_to_line(len(results) + 4)` and a bare `print()`. -/
def finalDisplayOut (headerPrinted : Bool) (m : ResultMap) (spinnerIndex : Nat) :
    List TermCmd :=
  updateDisplayOut headerPrinted m spinnerIndex ++
    [TermCmd.moveTo (m.length + 4), TermCmd.newline]

/-! ## Claim theorems -/

/-- C3: for every repository where the local branch tip resolves,
`GitRepo._get_sync_status` returns `synced` with counts (0,0) when the
local tip equals the remote-tracking tip; `ahead` with (1,0) when the
remote-tracking branch is absent; otherwise, with `a`/`b` the parsed
ahead/behind `rev-list --count` outputs: `diverged (a,b)` when both are
nonzero, `ahead (a,0)` when only `a` is, `behind (0,b)` when only `b`
is, and `synced (0,0)` when both are zero. -/
theorem sync_status_derivation (lc rc ao bo : Option String)
    (hl : pyTruthy lc = true) :
    (pyTruthy rc = true → rc = lc → getSyncStatus lc rc ao bo = ⟨"synced", 0, 0⟩)
    ∧ (pyTruthy rc = false → getSyncStatus lc rc ao bo = ⟨"ahead", 1, 0⟩)
    ∧ (pyTruthy rc = true → rc ≠ lc →
        getSyncStatus lc rc ao bo =
          if parseCount ao ≠ 0 ∧ parseCount bo ≠ 0 then
            ⟨"diverged", parseCount ao, parseCount bo⟩
          else if parseCount ao ≠ 0 then ⟨"ahead", parseCount ao, 0⟩
          else if parseCount bo ≠ 0 then ⟨"behind", 0, parseCount bo⟩
          else ⟨"synced", 0, 0⟩) := by
  refine ⟨?_, ?_, ?_⟩
  · intro hr heq
    subst heq
    simp [getSyncStatus, hl, hr]
  · intro hr
    simp [getSyncStatus, hl, hr]
  · intro hr hne
    have hlcne : ¬ (lc = rc) := fun he => hne he.symm
    simp only [getSyncStatus, hl, hr, Bool.not_true, Bool.false_eq_true, if_false,
      if_neg hlcne]
    by_cases ha : parseCount ao = 0 <;> by_cases hb : parseCount bo = 0
    · simp [ha, hb]
    · simp [ha, hb, Nat.pos_of_ne_zero hb]
    · simp [ha, hb, Nat.pos_of_ne_zero ha]
    · simp [ha, hb, Nat.pos_of_ne_zero ha, Nat.pos_of_ne_zero hb]

/-- Witness for C3 at concrete inputs: local `"abc"`, remote `"def"`,
ahead count `2`, behind count `0`. -/
theorem sync_status_derivation_witness :
    pyTruthy (some "abc") = true
    ∧ ((pyTruthy (some "def") = true → some "def" = some "abc" →
          getSyncStatus (some "abc") (some "def") (some "2") (some "0") = ⟨"synced", 0, 0⟩)
      ∧ (pyTruthy (some "def") = false →
          getSyncStatus (some "abc") (some "def") (some "2") (some "0") = ⟨"ahead", 1, 0⟩)
      ∧ (pyTruthy (some "def") = true → some "def" ≠ some "abc" →
          getSyncStatus (some "abc") (some "def") (some "2") (some "0") =
            if parseCount (some "2") ≠ 0 ∧ parseCount (some "0") ≠ 0 then
              ⟨"diverged", parseCount (some "2"), parseCount (some "0")⟩
            else if parseCount (some "2") ≠ 0 then ⟨"ahead", parseCount (some "2"), 0⟩
            else if parseCount (some "0") ≠ 0 then ⟨"behind", 0, parseCount (some "0")⟩
            else ⟨"synced", 0, 0⟩)) :=
  ⟨by decide, sync_status_derivation (some "abc") (some "def") (some "2") (some "0") (by decide)⟩

/-- C6: the cache round-trip.  After `set_cache_data path data`, with the
repository's metadata modification times unchanged (the same `fs`
oracle), `is_cached_valid path` is true and `get_cached_data path`
returns exactly `data`. -/
theorem cache_roundtrip (c : GitCache) (fs : String → Int) (path : String)
    (data : List (String × PyVal)) :
    is_cached_valid (set_cache_data c fs path data) fs path = true
    ∧ get_cached_data (set_cache_data c fs path data) path = data := by
  constructor
  · simp [is_cached_valid, set_cache_data, lookup_setKey_self]
  · simp [get_cached_data, set_cache_data, lookup_setKey_self]

/-- C10: when the git wrapper yields no output (`_run_git_command`
returned `None`), `_get_unstaged_changes` returns `0` and
`_get_current_branch` returns `"detached"`; no per-field error is
recorded, so the fast result renders `"0"` and `"detached"` in those
cells — never `"Error"`. -/
theorem wrapper_failure_defaults (n dn spinner : String) :
    getUnstagedChanges none = .ok 0
    ∧ getCurrentBranch none = "detached"
    ∧ (process_repo_fast n dn (getUnstagedChanges none)
        (.ok (getCurrentBranch none))).unstaged_changes = some 0
    ∧ (process_repo_fast n dn (getUnstagedChanges none)
        (.ok (getCurrentBranch none))).current_branch = some "detached"
    ∧ (process_repo_fast n dn (getUnstagedChanges none)
        (.ok (getCurrentBranch none))).errors = []
    ∧ cellUnstaged (process_repo_fast n dn (getUnstagedChanges none)
        (.ok (getCurrentBranch none))) spinner = "0"
    ∧ cellBranch (process_repo_fast n dn (getUnstagedChanges none)
        (.ok (getCurrentBranch none))) spinner = "detached"
    ∧ ("0" : String) ≠ "Error" ∧ ("detached" : String) ≠ "Error" :=
  ⟨rfl, rfl, rfl, rfl, rfl, rfl, rfl, by decide, by decide⟩

/-- The concrete repository refuting C1: its loaded cache holds both fast
fields (`unstaged_changes = 5`, `current_branch = "main"`), while fresh
git queries return 3 unstaged changes and branch `"dev"`. -/
def cachedRepo : GitRepo where
  real_name := "alpha"
  display_name := "alpha"
  cachedData := [("unstaged_changes", .vInt 5), ("current_branch", .vStr "main")]
  exec := fun args =>
    if args = ["status", "--porcelain"] then some " M a\n M b\n M c"
    else if args = ["branch", "--show-current"] then some "dev"
    else none

/-- Counterexample to C1: for `cachedRepo`, whose cache entry is valid
and loaded (the caching properties would answer 5 / `"main"` without any
git invocation), the fast-phase task still issues both git queries and
returns the fresh values 3 / `"dev"`, not the cached ones. -/
theorem fast_phase_ignores_cache_cex :
    ((unstagedChangesProp cachedRepo).1 = .ok 5
      ∧ (unstagedChangesProp cachedRepo).2 = []
      ∧ (currentBranchProp cachedRepo).1 = "main"
      ∧ (currentBranchProp cachedRepo).2 = [])
    ∧ (process_repo_fastT cachedRepo).2 =
        [["status", "--porcelain"], ["branch", "--show-current"]]
    ∧ (process_repo_fastT cachedRepo).1.unstaged_changes = some 3
    ∧ (process_repo_fastT cachedRepo).1.current_branch = some "dev"
    ∧ some (3 : Nat) ≠ some 5
    ∧ some "dev" ≠ some "main" :=
  ⟨⟨rfl, rfl, rfl, rfl⟩, rfl, rfl, rfl, by decide, by decide⟩

/-- C1 as the code has it: `process_repo_fast` calls the private query
methods, so for every repository the fast phase issues exactly the two
git commands and returns the fresh query results — the loaded cache is
never consulted (the result and the performed queries are independent of
`_cached_data`). -/
theorem fast_phase_always_queries (repo : GitRepo) :
    (process_repo_fastT repo).2 = [["status", "--porcelain"], ["branch", "--show-current"]]
    ∧ (process_repo_fastT repo).1 =
        process_repo_fast repo.real_name repo.display_name
          (getUnstagedChanges (repo.exec ["status", "--porcelain"]))
          (.ok (getCurrentBranch (repo.exec ["branch", "--show-current"])))
    ∧ ∀ cd : List (String × PyVal),
        (process_repo_fastT { repo with cachedData := cd }).1 = (process_repo_fastT repo).1
        ∧ (process_repo_fastT { repo with cachedData := cd }).2 = (process_repo_fastT repo).2 :=
  ⟨rfl, rfl, fun _ => ⟨rfl, rfl⟩⟩

/-- The one-repository result map used by the C9 counterexample and
witness. -/
def singleRepoMap : ResultMap := [("alpha", { name := "alpha", display_name := "alpha" })]

/-- Counterexample to C9: with one repository, the single data row
occupies line `3 + 0 = 3`, so one line below it is line 4 — but
`final_display` moves the cursor to `len(results) + 4 = 5`, two lines
below the last row, before emitting its trailing newline. -/
theorem final_cursor_two_below_cex :
    (finalDisplayOut true singleRepoMap 0).getLast? = some TermCmd.newline
    ∧ (finalDisplayOut true singleRepoMap 0).dropLast.getLast? = some (TermCmd.moveTo 5)
    ∧ (5 : Nat) ≠ 3 + 0 + 1 := by
  refine ⟨?_, ?_, by decide⟩ <;> rfl

/-- C9 as the code has it: the final render emits exactly one more
ordinary `update_display` frame of the same snapshot, then one cursor
move to line `n + 4` — two lines below the last data row (rows sit on
lines `3 + i`, `i = 0 … n-1`) — and a single trailing newline. -/
theorem final_display_frame_and_cursor (headerPrinted : Bool) (m : ResultMap)
    (spinnerIndex : Nat) :
    finalDisplayOut headerPrinted m spinnerIndex =
      updateDisplayOut headerPrinted m spinnerIndex ++
        [TermCmd.moveTo (m.length + 4), TermCmd.newline]
    ∧ (m ≠ [] → m.length + 4 = (3 + (m.length - 1)) + 2) := by
  refine ⟨rfl, fun hm => ?_⟩
  have : 1 ≤ m.length := List.length_pos.mpr hm
  omega

/-- Witness for C9's amended theorem at a concrete one-repository map. -/
theorem final_display_frame_and_cursor_witness :
    (finalDisplayOut true singleRepoMap 0 =
      updateDisplayOut true singleRepoMap 0 ++
        [TermCmd.moveTo (singleRepoMap.length + 4), TermCmd.newline])
    ∧ (singleRepoMap ≠ [] →
        singleRepoMap.length + 4 = (3 + (singleRepoMap.length - 1)) + 2) :=
  final_display_frame_and_cursor true singleRepoMap 0


/-- C5: per-field failure isolation.  After the fast task and the merged
slow task for one repository, every field and error-tag is a function of
that field's own call outcome alone: a failing call records its message
under the field's tag and leaves the field unset, while every other
field is computed from its own outcome undisturbed — and both task
bodies are total (no exception escapes to the scheduler or renderer). -/
theorem field_failure_isolation (n dn : String)
    (ou : Except String Nat) (ob : Except String String)
    (opr : Except String PRInfo) (orem : Except String Bool)
    (osy : Except String SyncStatus) (ourl : Except String (Option String)) :
    (applyUpdates (process_repo_fast n dn ou ob)
        (process_repo_slow n opr orem osy ourl).2).unstaged_changes
      = (match ou with | .ok v => some v | .error _ => none)
    ∧ (applyUpdates (process_repo_fast n dn ou ob)
        (process_repo_slow n opr orem osy ourl).2).errors.lookup "unstaged"
      = (match ou with | .ok _ => none | .error e => some e)
    ∧ (applyUpdates (process_repo_fast n dn ou ob)
        (process_repo_slow n opr orem osy ourl).2).current_branch
      = (match ob with | .ok v => some v | .error _ => none)
    ∧ (applyUpdates (process_repo_fast n dn ou ob)
        (process_repo_slow n opr orem osy ourl).2).errors.lookup "branch"
      = (match ob with | .ok _ => none | .error e => some e)
    ∧ (applyUpdates (process_repo_fast n dn ou ob)
        (process_repo_slow n opr orem osy ourl).2).pr_info
      = (match opr with | .ok v => some v | .error _ => none)
    ∧ (applyUpdates (process_repo_fast n dn ou ob)
        (process_repo_slow n opr orem osy ourl).2).errors.lookup "pr"
      = (match opr with | .ok _ => none | .error e => some e)
    ∧ (applyUpdates (process_repo_fast n dn ou ob)
        (process_repo_slow n opr orem osy ourl).2).sync_status
      = (match orem, osy with | .ok _, .ok s => some s | _, _ => none)
    ∧ (applyUpdates (process_repo_fast n dn ou ob)
        (process_repo_slow n opr orem osy ourl).2).errors.lookup "remote"
      = (match orem, osy with
          | .error e, _ => some e
          | .ok _, .error e => some e
          | .ok _, .ok _ => none)
    ∧ (applyUpdates (process_repo_fast n dn ou ob)
        (process_repo_slow n opr orem osy ourl).2).repo_url
      = (match ourl with | .ok v => v | .error _ => none)
    ∧ (applyUpdates (process_repo_fast n dn ou ob)
        (process_repo_slow n opr orem osy ourl).2).errors.lookup "repo_url"
      = (match ourl with | .ok _ => none | .error e => some e) := by
  cases ou <;> cases ob <;> cases opr <;> cases orem <;> cases osy <;> cases ourl <;>
    simp [process_repo_fast, process_repo_slow, applyUpdates, setKey, List.lookup]

/-- Counterexample to C2: when `_check_remote_updated()` succeeds (here:
`True`) and the following `_get_sync_status()` raises (here: `"boom"`),
the merged result carries both `is_remote_updated = True` and
`errors["remote"] = "boom"`; the rendered sync cell then shows the green
check mark — a value — while the `remote` tag sits in the error map. -/
theorem remote_set_and_errored_cex :
    ((applyUpdates (process_repo_fast "alpha" "alpha" (.ok 0) (.ok "main"))
        (process_repo_slow "alpha" (.ok ⟨false, none, none⟩) (.ok true) (.error "boom")
          (.ok none)).2).is_remote_updated = some true)
    ∧ ((applyUpdates (process_repo_fast "alpha" "alpha" (.ok 0) (.ok "main"))
        (process_repo_slow "alpha" (.ok ⟨false, none, none⟩) (.ok true) (.error "boom")
          (.ok none)).2).errors.lookup "remote" = some "boom")
    ∧ ((applyUpdates (process_repo_fast "alpha" "alpha" (.ok 0) (.ok "main"))
        (process_repo_slow "alpha" (.ok ⟨false, none, none⟩) (.ok true) (.error "boom")
          (.ok none)).2).sync_status = none)
    ∧ cellRemote (applyUpdates (process_repo_fast "alpha" "alpha" (.ok 0) (.ok "main"))
        (process_repo_slow "alpha" (.ok ⟨false, none, none⟩) (.ok true) (.error "boom")
          (.ok none)).2) (spinnerChar 0) = "\x1b[32m✓\x1b[0m"
    ∧ cellRemote (applyUpdates (process_repo_fast "alpha" "alpha" (.ok 0) (.ok "main"))
        (process_repo_slow "alpha" (.ok ⟨false, none, none⟩) (.ok true) (.error "boom")
          (.ok none)).2) (spinnerChar 0) ≠ "Error"
    ∧ (update_result [("alpha", process_repo_fast "alpha" "alpha" (.ok 0) (.ok "main"))]
        "alpha"
        (process_repo_slow "alpha" (.ok ⟨false, none, none⟩) (.ok true) (.error "boom")
          (.ok none)).2).lookup "alpha"
      = some (applyUpdates (process_repo_fast "alpha" "alpha" (.ok 0) (.ok "main"))
          (process_repo_slow "alpha" (.ok ⟨false, none, none⟩) (.ok true) (.error "boom")
            (.ok none)).2) := by
  refine ⟨rfl, rfl, rfl, rfl, by decide, by decide⟩

/-- C2 as the code has it: for the five data fields proper — unstaged,
branch, PR info, structured sync status, repo url — no observable result
(fast result or merged result) ever has the field set and its tag in the
error map at once.  The one exception in the code, exhibited by the
counterexample, is the legacy `is_remote_updated` boolean, which can be
set while `errors["remote"]` is recorded when `_check_remote_updated()`
succeeds but `_get_sync_status()` then raises. -/
theorem fields_never_set_and_errored (n dn : String)
    (ou : Except String Nat) (ob : Except String String)
    (opr : Except String PRInfo) (orem : Except String Bool)
    (osy : Except String SyncStatus) (ourl : Except String (Option String)) :
    (¬ ((process_repo_fast n dn ou ob).unstaged_changes.isSome
        ∧ ((process_repo_fast n dn ou ob).errors.lookup "unstaged").isSome))
    ∧ (¬ ((process_repo_fast n dn ou ob).current_branch.isSome
        ∧ ((process_repo_fast n dn ou ob).errors.lookup "branch").isSome))
    ∧ (¬ ((applyUpdates (process_repo_fast n dn ou ob)
          (process_repo_slow n opr orem osy ourl).2).unstaged_changes.isSome
        ∧ (((applyUpdates (process_repo_fast n dn ou ob)
          (process_repo_slow n opr orem osy ourl).2).errors.lookup "unstaged")).isSome))
    ∧ (¬ ((applyUpdates (process_repo_fast n dn ou ob)
          (process_repo_slow n opr orem osy ourl).2).current_branch.isSome
        ∧ (((applyUpdates (process_repo_fast n dn ou ob)
          (process_repo_slow n opr orem osy ourl).2).errors.lookup "branch")).isSome))
    ∧ (¬ ((applyUpdates (process_repo_fast n dn ou ob)
          (process_repo_slow n opr orem osy ourl).2).pr_info.isSome
        ∧ (((applyUpdates (process_repo_fast n dn ou ob)
          (process_repo_slow n opr orem osy ourl).2).errors.lookup "pr")).isSome))
    ∧ (¬ ((applyUpdates (process_repo_fast n dn ou ob)
          (process_repo_slow n opr orem osy ourl).2).sync_status.isSome
        ∧ (((applyUpdates (process_repo_fast n dn ou ob)
          (process_repo_slow n opr orem osy ourl).2).errors.lookup "remote")).isSome))
    ∧ (¬ ((applyUpdates (process_repo_fast n dn ou ob)
          (process_repo_slow n opr orem osy ourl).2).repo_url.isSome
        ∧ (((applyUpdates (process_repo_fast n dn ou ob)
          (process_repo_slow n opr orem osy ourl).2).errors.lookup "repo_url")).isSome)) := by
  cases ou <;> cases ob <;> cases opr <;> cases orem <;> cases osy <;> cases ourl <;>
    simp [process_repo_fast, process_repo_slow, applyUpdates, setKey, List.lookup]



/-- `update_result` never changes the key list of the result map. -/
theorem update_result_keys (m : ResultMap) (nm : String) (u : Updates) :
    (update_result m nm u).map Prod.fst = m.map Prod.fst := by
  unfold update_result
  split
  · rw [List.map_map]
    apply List.map_congr_left
    intro p _
    by_cases h : p.1 = nm <;> simp [h]
  · rfl

/-- `update_result` on a key absent from the map is a no-op. -/
theorem update_result_absent (m : ResultMap) (nm : String) (u : Updates)
    (h : m.lookup nm = none) : update_result m nm u = m := by
  unfold update_result
  rw [h]
  rfl

/-- A key present before an insertion stays present. -/
theorem lookup_insertResult_isSome (m : ResultMap) (r : RepoResult) (k : String)
    (h : (m.lookup k).isSome) : ((insertResult m r).lookup k).isSome := by
  unfold insertResult
  by_cases hk : k = r.name
  · subst hk; rw [lookup_setKey_self]; rfl
  · rw [lookup_setKey_ne _ _ _ _ hk]; exact h

/-- The final map of the fast fold, ignoring the snapshot stream. -/
theorem fastPhase_fst (order : List RepoTask) :
    ∀ (m0 : ResultMap) (s0 : List ResultMap),
      (order.foldl
        (fun acc t =>
          let m := insertResult acc.1
            (process_repo_fast t.name t.display_name t.fastUnstaged t.fastBranch)
          (m, acc.2 ++ [m]))
        (m0, s0)).1
      = order.foldl
          (fun m t =>
            insertResult m (process_repo_fast t.name t.display_name t.fastUnstaged t.fastBranch))
          m0 := by
  induction order with
  | nil => intro m0 s0; rfl
  | cons t ts ih => intro m0 s0; simp only [List.foldl_cons]; exact ih _ _

/-- The fast task result keeps the repository's name. -/
theorem process_repo_fast_name (n dn : String) (a : Except String Nat)
    (b : Except String String) : (process_repo_fast n dn a b).name = n := by
  unfold process_repo_fast
  cases a <;> cases b <;> rfl

/-- Keys already inserted survive the rest of the fast fold. -/
theorem fastFold_preserves (order : List RepoTask) :
    ∀ (m0 : ResultMap) (k : String), (m0.lookup k).isSome →
      ((order.foldl
        (fun m t =>
          insertResult m (process_repo_fast t.name t.display_name t.fastUnstaged t.fastBranch))
        m0).lookup k).isSome := by
  induction order with
  | nil => intro m0 k h; exact h
  | cons t ts ih =>
    intro m0 k h
    simp only [List.foldl_cons]
    exact ih _ _ (lookup_insertResult_isSome _ _ _ h)

/-- Every task in the fast completion order ends with an entry in the
final fast map. -/
theorem fastFold_covers (order : List RepoTask) :
    ∀ (m0 : ResultMap) (t : RepoTask), t ∈ order →
      ((order.foldl
        (fun m t =>
          insertResult m (process_repo_fast t.name t.display_name t.fastUnstaged t.fastBranch))
        m0).lookup t.name).isSome := by
  induction order with
  | nil => intro m0 t h; cases h
  | cons s ts ih =>
    intro m0 t ht
    simp only [List.foldl_cons]
    rcases List.mem_cons.mp ht with h | h
    · subst h
      apply fastFold_preserves
      unfold insertResult
      rw [process_repo_fast_name, lookup_setKey_self]
      rfl
    · exact ih _ t h

/-- Invariant of the slow fold: the final map and every snapshot taken
during it carry exactly the key list of the starting map. -/
theorem slowFold_keys (order : List RepoTask) :
    ∀ (m0 : ResultMap) (s0 : List ResultMap),
      ((order.foldl
          (fun acc t =>
            let nu := process_repo_slow t.name t.slowPr t.slowRemoteUpdated t.slowSync t.slowUrl
            let m := update_result acc.1 nu.1 nu.2
            (m, acc.2 ++ [m]))
          (m0, s0)).1.map Prod.fst = m0.map Prod.fst)
      ∧ ∀ sm ∈ (order.foldl
          (fun acc t =>
            let nu := process_repo_slow t.name t.slowPr t.slowRemoteUpdated t.slowSync t.slowUrl
            let m := update_result acc.1 nu.1 nu.2
            (m, acc.2 ++ [m]))
          (m0, s0)).2, sm ∈ s0 ∨ sm.map Prod.fst = m0.map Prod.fst := by
  induction order with
  | nil => intro m0 s0; exact ⟨rfl, fun sm hsm => Or.inl hsm⟩
  | cons t ts ih =>
    intro m0 s0
    simp only [List.foldl_cons]
    have hkeys : (update_result m0
        (process_repo_slow t.name t.slowPr t.slowRemoteUpdated t.slowSync t.slowUrl).1
        (process_repo_slow t.name t.slowPr t.slowRemoteUpdated t.slowSync t.slowUrl).2).map Prod.fst
        = m0.map Prod.fst := update_result_keys _ _ _
    obtain ⟨h1, h2⟩ := ih (update_result m0
        (process_repo_slow t.name t.slowPr t.slowRemoteUpdated t.slowSync t.slowUrl).1
        (process_repo_slow t.name t.slowPr t.slowRemoteUpdated t.slowSync t.slowUrl).2)
      (s0 ++ [update_result m0
        (process_repo_slow t.name t.slowPr t.slowRemoteUpdated t.slowSync t.slowUrl).1
        (process_repo_slow t.name t.slowPr t.slowRemoteUpdated t.slowSync t.slowUrl).2])
    refine ⟨h1.trans hkeys, fun sm hsm => ?_⟩
    rcases h2 sm hsm with h | h
    · rcases List.mem_append.mp h with h3 | h3
      · exact Or.inl h3
      · right
        have hsm1 : sm = update_result m0
            (process_repo_slow t.name t.slowPr t.slowRemoteUpdated t.slowSync t.slowUrl).1
            (process_repo_slow t.name t.slowPr t.slowRemoteUpdated t.slowSync t.slowUrl).2 := by
          simpa using h3
        rw [hsm1]
        exact hkeys
    · exact Or.inr (h.trans hkeys)

/-- C4: for every repository list and every pair of completion orders
(each a permutation of the list), once the fast phase has drained, every
repository has an entry in the shared map; a slow-phase merge for an
absent key is a no-op; and the final map and every snapshot passed to
the callback during the slow phase carry exactly the key list the fast
phase established. -/
theorem slow_phase_key_stability (repos fastOrder slowOrder : List RepoTask)
    (hf : fastOrder.Perm repos) (hs : slowOrder.Perm repos) :
    (∀ t ∈ repos, (((fastPhase fastOrder []).1.lookup t.name)).isSome)
    ∧ (∀ (m : ResultMap) (nm : String) (u : Updates),
        m.lookup nm = none → update_result m nm u = m)
    ∧ ((slowPhase slowOrder (fastPhase fastOrder []).1).1.map Prod.fst
        = (fastPhase fastOrder []).1.map Prod.fst)
    ∧ (∀ sm ∈ (slowPhase slowOrder (fastPhase fastOrder []).1).2,
        sm.map Prod.fst = (fastPhase fastOrder []).1.map Prod.fst) := by
  have hs0 := hs
  refine ⟨?_, ?_, ?_, ?_⟩
  · intro t ht
    unfold fastPhase
    rw [fastPhase_fst]
    exact fastFold_covers fastOrder [] t (hf.mem_iff.mpr ht)
  · exact update_result_absent
  · exact (slowFold_keys slowOrder (fastPhase fastOrder []).1 []).1
  · intro sm hsm
    rcases (slowFold_keys slowOrder (fastPhase fastOrder []).1 []).2 sm hsm with h | h
    · cases h
    · exact h

/-- The two concrete repository tasks of the C4 witness. -/
def taskA : RepoTask :=
  ⟨"alpha", "alpha", .ok 0, .ok "main", .ok ⟨false, none, none⟩, .ok true,
    .ok ⟨"synced", 0, 0⟩, .ok none⟩

/-- Second concrete repository task of the C4 witness. -/
def taskB : RepoTask :=
  ⟨"beta", "beta", .error "no git", .ok "dev", .error "gh down", .ok false,
    .error "fetch failed", .ok (some "https://example.org/beta")⟩

/-- Witness for C4: two repositories whose fast and slow completion
orders are both reversals of the submission order. -/
theorem slow_phase_key_stability_witness :
    (∀ t ∈ [taskA, taskB], (((fastPhase [taskB, taskA] []).1.lookup t.name)).isSome)
    ∧ (∀ (m : ResultMap) (nm : String) (u : Updates),
        m.lookup nm = none → update_result m nm u = m)
    ∧ ((slowPhase [taskB, taskA] (fastPhase [taskB, taskA] []).1).1.map Prod.fst
        = (fastPhase [taskB, taskA] []).1.map Prod.fst)
    ∧ (∀ sm ∈ (slowPhase [taskB, taskA] (fastPhase [taskB, taskA] []).1).2,
        sm.map Prod.fst = (fastPhase [taskB, taskA] []).1.map Prod.fst) :=
  slow_phase_key_stability [taskA, taskB] [taskB, taskA] [taskB, taskA]
    (by decide) (by decide)



/-- Is a run event a cache persist? -/
def isPersistEvent : RunEvent → Bool
  | .persist _ => true
  | _ => false

/-- Every event the scan's save loop emits is a persist. -/
theorem scanPersists_all_persist (repos : List ScannedRepo) :
    ∀ e ∈ scanPersists repos, isPersistEvent e = true := by
  intro e he
  rcases List.mem_filterMap.mp he with ⟨r, _, hr⟩
  by_cases h : (saveData r).isEmpty
  · simp [h] at hr
  · simp only [h, Bool.not_false, if_pos] at hr
    rw [← Option.some_inj.mp hr]
    rfl

/-- No fast-done or slow-done event is a persist. -/
theorem gatherEvents_not_persist (fastOrder slowOrder : List String) :
    ∀ e ∈ fastOrder.map RunEvent.fastDone ++ slowOrder.map RunEvent.slowDone,
      isPersistEvent e = false := by
  intro e he
  rcases List.mem_append.mp he with h | h <;>
    rcases List.mem_map.mp h with ⟨n, _, hn⟩ <;> rw [← hn] <;> rfl

/-- `scanPersists` unfolded one repository at a time. -/
theorem scanPersists_cons (r : ScannedRepo) (rs : List ScannedRepo) :
    scanPersists (r :: rs) =
      (if !(saveData r).isEmpty then [RunEvent.persist r.name] else [])
        ++ scanPersists rs := by
  unfold scanPersists
  rw [List.filterMap_cons]
  by_cases h : (saveData r).isEmpty <;> simp [h]

/-- A name not scanned produces no persist events. -/
theorem scanPersists_count_zero (rs : List ScannedRepo) (n : String)
    (h : n ∉ rs.map ScannedRepo.name) :
    (scanPersists rs).count (RunEvent.persist n) = 0 := by
  induction rs with
  | nil => rfl
  | cons r rs ih =>
    simp only [List.map_cons, List.mem_cons, not_or] at h
    rw [scanPersists_cons, List.count_append]
    have h2 := ih h.2
    by_cases he : (saveData r).isEmpty
    · simp [he, h2]
    · have : (RunEvent.persist n ≠ RunEvent.persist r.name) := by
        intro hc
        exact h.1 (by cases hc; rfl)
      simp [he, h2, List.count_cons]
      intro hc
      exact absurd (by rw [hc]) this

/-- Counterexample to C7: a repository whose cache entry was invalid at
scan time is never persisted at all during the run (the run-time fields
it gathers are not written back), refuting "persistence happens exactly
once"; and for a repository with a valid, non-empty cache entry the one
persist event precedes every field-gathering event, refuting "only after
all fields have been gathered". -/
theorem persist_timing_cex :
    (runTrace [⟨"alpha", false, [("unstaged_changes", PyVal.vInt 1)]⟩]
        ["alpha"] ["alpha"]).count (RunEvent.persist "alpha") = 0
    ∧ runTrace [⟨"beta", true, [("unstaged_changes", PyVal.vInt 2)]⟩]
        ["beta"] ["beta"]
      = [RunEvent.persist "beta", RunEvent.fastDone "beta", RunEvent.slowDone "beta"] := by
  exact ⟨rfl, rfl⟩

/-- In a trace that is persists followed by non-persists, every persist
index precedes every non-persist index. -/
theorem persist_indices_lt (t P G : List RunEvent) (ht : t = P ++ G)
    (hP : ∀ e ∈ P, isPersistEvent e = true)
    (hG : ∀ e ∈ G, isPersistEvent e = false)
    (i j : Nat) (hi : i < t.length) (hj : j < t.length)
    (hpi : isPersistEvent (t.get ⟨i, hi⟩) = true)
    (hpj : isPersistEvent (t.get ⟨j, hj⟩) = false) : i < j := by
  subst ht
  have hi' : i < P.length := by
    by_contra hge
    push_neg at hge
    have hmem : (P ++ G).get ⟨i, hi⟩ ∈ G := by
      rw [List.get_eq_getElem, List.getElem_append_right hge]
      exact List.getElem_mem _
    rw [hG _ hmem] at hpi
    cases hpi
  have hj' : P.length ≤ j := by
    by_contra hlt
    push_neg at hlt
    have hmem : (P ++ G).get ⟨j, hj⟩ ∈ P := by
      rw [List.get_eq_getElem, List.getElem_append_left hlt]
      exact List.getElem_mem _
    rw [hP _ hmem] at hpj
    cases hpj
  omega

/-- C7 as the code has it: every cache persist of a run happens during
the scan, strictly before every fast- or slow-phase completion event;
and per repository (names distinct) the persist count is 1 when its
valid cache entry restricted to the six cached field keys is non-empty,
else 0 — never more, and never after field gathering. -/
theorem persist_timing (repos : List ScannedRepo) (fastOrder slowOrder : List String)
    (hnd : (repos.map ScannedRepo.name).Nodup) :
    (∀ (i j : Nat) (hi : i < (runTrace repos fastOrder slowOrder).length)
        (hj : j < (runTrace repos fastOrder slowOrder).length),
        isPersistEvent ((runTrace repos fastOrder slowOrder).get ⟨i, hi⟩) = true →
        isPersistEvent ((runTrace repos fastOrder slowOrder).get ⟨j, hj⟩) = false →
        i < j)
    ∧ (∀ r ∈ repos, (scanPersists repos).count (RunEvent.persist r.name)
        = if (saveData r).isEmpty then 0 else 1) := by
  constructor
  · intro i j hi hj hpi hpj
    exact persist_indices_lt (runTrace repos fastOrder slowOrder)
      (scanPersists repos)
      (fastOrder.map RunEvent.fastDone ++ slowOrder.map RunEvent.slowDone)
      (by unfold runTrace; rw [List.append_assoc])
      (scanPersists_all_persist repos)
      (gatherEvents_not_persist fastOrder slowOrder)
      i j hi hj hpi hpj
  · intro r hr
    induction repos with
    | nil => cases hr
    | cons r0 rs ih =>
      simp only [List.map_cons, List.nodup_cons] at hnd
      rw [scanPersists_cons, List.count_append]
      rcases List.mem_cons.mp hr with h | h
      · subst h
        have hz : (scanPersists rs).count (RunEvent.persist r.name) = 0 :=
          scanPersists_count_zero rs r.name hnd.1
        by_cases he : (saveData r).isEmpty
        · simp [he, hz]
        · simp [he, hz, List.count_cons]
      · have hne : r.name ≠ r0.name := by
          intro hc
          exact hnd.1 (hc ▸ (List.mem_map.mpr ⟨r, h, rfl⟩))
        have := ih hnd.2 h
        by_cases he : (saveData r0).isEmpty
        · simpa [he] using this
        · have hcnt : [RunEvent.persist r0.name].count (RunEvent.persist r.name) = 0 := by
            simp [List.count_cons]
            intro hc
            exact absurd (by rw [hc]) hne
          simp only [he, Bool.not_false, if_pos, hcnt]
          simpa using this

/-- Witness for C7's amended theorem at a concrete two-repository scan:
one invalid entry (zero persists), one valid non-empty entry (one
persist, emitted before both phases). -/
theorem persist_timing_witness :
    ((∀ (i j : Nat)
        (hi : i < (runTrace [⟨"alpha", false, [("unstaged_changes", PyVal.vInt 1)]⟩,
          ⟨"beta", true, [("unstaged_changes", PyVal.vInt 2)]⟩]
          ["alpha", "beta"] ["beta", "alpha"]).length)
        (hj : j < (runTrace [⟨"alpha", false, [("unstaged_changes", PyVal.vInt 1)]⟩,
          ⟨"beta", true, [("unstaged_changes", PyVal.vInt 2)]⟩]
          ["alpha", "beta"] ["beta", "alpha"]).length),
        isPersistEvent ((runTrace [⟨"alpha", false, [("unstaged_changes", PyVal.vInt 1)]⟩,
          ⟨"beta", true, [("unstaged_changes", PyVal.vInt 2)]⟩]
          ["alpha", "beta"] ["beta", "alpha"]).get ⟨i, hi⟩) = true →
        isPersistEvent ((runTrace [⟨"alpha", false, [("unstaged_changes", PyVal.vInt 1)]⟩,
          ⟨"beta", true, [("unstaged_changes", PyVal.vInt 2)]⟩]
          ["alpha", "beta"] ["beta", "alpha"]).get ⟨j, hj⟩) = false →
        i < j)
      ∧ (∀ r ∈ [(⟨"alpha", false, [("unstaged_changes", PyVal.vInt 1)]⟩ : ScannedRepo),
          ⟨"beta", true, [("unstaged_changes", PyVal.vInt 2)]⟩],
          (scanPersists [⟨"alpha", false, [("unstaged_changes", PyVal.vInt 1)]⟩,
            ⟨"beta", true, [("unstaged_changes", PyVal.vInt 2)]⟩]).count
              (RunEvent.persist r.name)
            = if (saveData r).isEmpty then 0 else 1)) :=
  persist_timing
    [⟨"alpha", false, [("unstaged_changes", PyVal.vInt 1)]⟩,
      ⟨"beta", true, [("unstaged_changes", PyVal.vInt 2)]⟩]
    ["alpha", "beta"] ["beta", "alpha"]
    (by simp)



/-- The starting accumulator bounds a `foldl max`. -/
theorem foldl_max_le_init (l : List Nat) : ∀ a : Nat, a ≤ l.foldl max a := by
  induction l with
  | nil => intro a; exact le_refl a
  | cons x xs ih => intro a; exact le_trans (le_max_left a x) (ih (max a x))

/-- Every member bounds a `foldl max` from below. -/
theorem foldl_max_mem_le (l : List Nat) : ∀ (a x : Nat), x ∈ l → x ≤ l.foldl max a := by
  induction l with
  | nil => intro a x h; cases h
  | cons y ys ih =>
    intro a x h
    rcases List.mem_cons.mp h with h | h
    · subst h; exact le_trans (le_max_right a x) (foldl_max_le_init ys _)
    · exact ih _ x h

/-- A `foldl max` is the accumulator or one of the members. -/
theorem foldl_max_cases (l : List Nat) : ∀ a : Nat, l.foldl max a = a ∨ l.foldl max a ∈ l := by
  induction l with
  | nil => intro a; exact Or.inl rfl
  | cons y ys ih =>
    intro a
    rcases ih (max a y) with h | h
    · rcases le_total y a with hya | hay
      · left; rw [List.foldl_cons, h, max_eq_left hya]
      · right; rw [List.foldl_cons, h, max_eq_right hay]; exact List.mem_cons_self _ _
    · right; rw [List.foldl_cons]; exact List.mem_cons_of_mem _ h

/-- `w` is the maximum of the fixed minimum `minW` and the visible
lengths of `cells`: it dominates both, and is attained by one of them. -/
def isMaxOf (w minW : Nat) (cells : List String) : Prop :=
  minW ≤ w ∧ (∀ c ∈ cells, visibleLen c ≤ w) ∧ (w = minW ∨ ∃ c ∈ cells, w = visibleLen c)

/-- `colWidth` computes exactly that maximum on a non-empty column. -/
theorem colWidth_spec (minW : Nat) (cells : List String) (h : cells ≠ []) :
    isMaxOf (colWidth minW cells) minW cells := by
  unfold colWidth
  rw [if_neg (by simpa [List.isEmpty_iff] using h)]
  refine ⟨le_max_left _ _, fun c hc => ?_, ?_⟩
  · exact le_trans
      (foldl_max_mem_le (cells.map visibleLen) 0 _ (List.mem_map.mpr ⟨c, hc, rfl⟩))
      (le_max_right _ _)
  · rcases foldl_max_cases (cells.map visibleLen) 0 with h0 | hmem
    · left
      unfold listMaxNat
      rw [h0]
      exact max_eq_left (Nat.zero_le _)
    · rcases le_or_lt (listMaxNat (cells.map visibleLen)) minW with hle | hlt
      · left; exact max_eq_left hle
      · right
        rcases List.mem_map.mp hmem with ⟨c, hc, hv⟩
        refine ⟨c, hc, ?_⟩
        rw [max_eq_right (le_of_lt hlt)]
        exact hv.symm

/-- Strict display-name order, used to pin the sorted list down when the
names are pairwise distinct. -/
def nameLt (a b : RepoResult) : Prop := a.display_name < b.display_name

instance : IsAntisymm RepoResult nameLt :=
  ⟨fun _ _ h1 h2 => absurd h2 (lt_asymm h1)⟩

/-- With pairwise-distinct display names, sorting is a function of the
multiset of results alone: two arrival orders sort to the same list. -/
theorem sortByName_eq_of_perm (l1 l2 : List RepoResult) (hp : l1.Perm l2)
    (hinj : l1.Pairwise (fun a b => a.display_name ≠ b.display_name)) :
    sortByName l1 = sortByName l2 := by
  have hperm12 : (sortByName l1).Perm (sortByName l2) :=
    (List.perm_insertionSort nameLe l1).trans
      (hp.trans (List.perm_insertionSort nameLe l2).symm)
  have hinj2 : l2.Pairwise (fun a b => a.display_name ≠ b.display_name) :=
    (hp.pairwise_iff (fun h => h.symm)).mp hinj
  have hne1 : (sortByName l1).Pairwise (fun a b => a.display_name ≠ b.display_name) :=
    ((List.perm_insertionSort nameLe l1).pairwise_iff (fun h => h.symm)).mpr hinj
  have hne2 : (sortByName l2).Pairwise (fun a b => a.display_name ≠ b.display_name) :=
    ((List.perm_insertionSort nameLe l2).pairwise_iff (fun h => h.symm)).mpr hinj2
  have hs1 : (sortByName l1).Pairwise nameLt :=
    ((List.sorted_insertionSort nameLe l1).and hne1).imp
      (fun hab => lt_of_le_of_ne hab.1 hab.2)
  have hs2 : (sortByName l2).Pairwise nameLt :=
    ((List.sorted_insertionSort nameLe l2).and hne2).imp
      (fun hab => lt_of_le_of_ne hab.1 hab.2)
  exact List.eq_of_perm_of_sorted hperm12 hs1 hs2


/-- C8: every frame's rows are the snapshot's results sorted by display
name (with pairwise-distinct display names, independent of the arrival
order: two permuted maps produce the identical row list), and every
column width equals the maximum of its fixed minimum (repository 30,
unstaged 10, branch 20, PR 8, sync 14) and the largest ANSI-stripped
visible length over the column's cells. -/
theorem render_sorted_rows_and_widths (m m2 : ResultMap) (spinnerIndex : Nat)
    (hperm : (m.map Prod.snd).Perm (m2.map Prod.snd))
    (hinj : (m.map Prod.snd).Pairwise (fun a b => a.display_name ≠ b.display_name)) :
    List.Sorted nameLe (sortByName (m.map Prod.snd))
    ∧ (sortByName (m.map Prod.snd)).Perm (m.map Prod.snd)
    ∧ buildRows m2 spinnerIndex = buildRows m spinnerIndex
    ∧ (buildRows m spinnerIndex ≠ [] →
        isMaxOf (computeWidths (buildRows m spinnerIndex)).1 30
          ((buildRows m spinnerIndex).map (·.1))
        ∧ isMaxOf (computeWidths (buildRows m spinnerIndex)).2.1 10
          ((buildRows m spinnerIndex).map (·.2.1))
        ∧ isMaxOf (computeWidths (buildRows m spinnerIndex)).2.2.1 20
          ((buildRows m spinnerIndex).map (·.2.2.1))
        ∧ isMaxOf (computeWidths (buildRows m spinnerIndex)).2.2.2.1 8
          ((buildRows m spinnerIndex).map (·.2.2.2.1))
        ∧ isMaxOf (computeWidths (buildRows m spinnerIndex)).2.2.2.2 14
          ((buildRows m spinnerIndex).map (·.2.2.2.2))) := by
  refine ⟨List.sorted_insertionSort nameLe _, List.perm_insertionSort nameLe _, ?_, ?_⟩
  · unfold buildRows
    rw [sortByName_eq_of_perm (m.map Prod.snd) (m2.map Prod.snd) hperm hinj]
  · intro hne
    have hmapne : ∀ f : Row → String,
        (buildRows m spinnerIndex).map f ≠ [] := by
      intro f hcon
      exact hne (List.map_eq_nil_iff.mp hcon)
    exact ⟨colWidth_spec 30 _ (hmapne _), colWidth_spec 10 _ (hmapne _),
      colWidth_spec 20 _ (hmapne _), colWidth_spec 8 _ (hmapne _),
      colWidth_spec 14 _ (hmapne _)⟩

/-- First concrete result of the C8 witness. -/
def resA : RepoResult := { name := "a", display_name := "alpha" }

/-- Second concrete result of the C8 witness. -/
def resB : RepoResult :=
  { name := "b", display_name := "beta", unstaged_changes := some 3,
    current_branch := some "feature" }

/-- The C8 witness map in one arrival order (beta completed first). -/
def mapBA : ResultMap := [("b", resB), ("a", resA)]

/-- The C8 witness map in the other arrival order. -/
def mapAB : ResultMap := [("a", resA), ("b", resB)]

/-- Witness for C8 at the two concrete two-row maps. -/
theorem render_sorted_rows_and_widths_witness :
    (List.Sorted nameLe (sortByName (mapBA.map Prod.snd))
    ∧ (sortByName (mapBA.map Prod.snd)).Perm (mapBA.map Prod.snd)
    ∧ buildRows mapAB 0 = buildRows mapBA 0
    ∧ (buildRows mapBA 0 ≠ [] →
        isMaxOf (computeWidths (buildRows mapBA 0)).1 30
          ((buildRows mapBA 0).map (·.1))
        ∧ isMaxOf (computeWidths (buildRows mapBA 0)).2.1 10
          ((buildRows mapBA 0).map (·.2.1))
        ∧ isMaxOf (computeWidths (buildRows mapBA 0)).2.2.1 20
          ((buildRows mapBA 0).map (·.2.2.1))
        ∧ isMaxOf (computeWidths (buildRows mapBA 0)).2.2.2.1 8
          ((buildRows mapBA 0).map (·.2.2.2.1))
        ∧ isMaxOf (computeWidths (buildRows mapBA 0)).2.2.2.2 14
          ((buildRows mapBA 0).map (·.2.2.2.2)))) :=
  render_sorted_rows_and_widths mapBA mapAB 0 (by decide) (by decide)



/-- Two distinct repositories sharing one display name (possible through
the alias file), first arrival order. -/
def resS1 : RepoResult := { name := "x", display_name := "same", unstaged_changes := some 1 }

/-- The second repository with the same display name. -/
def resS2 : RepoResult := { name := "y", display_name := "same", unstaged_changes := some 2 }

/-- Counterexample to C8's arrival-order independence: with two
repositories whose display names collide, `sorted` is stable, so the tie
keeps dict insertion order — the two arrival orders of the same result
set render different row lists (both still sorted by display name). -/
theorem sort_arrival_dependent_cex :
    ([resS1, resS2].Perm [resS2, resS1])
    ∧ buildRows [("x", resS1), ("y", resS2)] 0 ≠ buildRows [("y", resS2), ("x", resS1)] 0
    ∧ sortByName [resS1, resS2] = [resS1, resS2]
    ∧ sortByName [resS2, resS1] = [resS2, resS1] := by
  have hsort1 : sortByName [resS1, resS2] = [resS1, resS2] := by
    simp [sortByName, List.insertionSort, List.orderedInsert, nameLe, resS1, resS2]
  have hsort2 : sortByName [resS2, resS1] = [resS2, resS1] := by
    simp [sortByName, List.insertionSort, List.orderedInsert, nameLe, resS1, resS2]
  have hrow : buildRow (spinnerChar 0) resS1 ≠ buildRow (spinnerChar 0) resS2 := by
    intro h
    have h2 := congrArg (fun r : Row => r.2.1) h
    simp only [buildRow, cellUnstaged, resS1, resS2] at h2
    exact absurd h2 (by decide)
  refine ⟨by decide, ?_, hsort1, hsort2⟩
  intro h
  unfold buildRows at h
  rw [show ([("x", resS1), ("y", resS2)] : ResultMap).map Prod.snd = [resS1, resS2] from rfl,
    show ([("y", resS2), ("x", resS1)] : ResultMap).map Prod.snd = [resS2, resS1] from rfl,
    hsort1, hsort2] at h
  simp only [List.map_cons, List.map_nil, List.cons.injEq] at h
  exact hrow h.1


end Mgit



